import Mathlib

/-!
Verification of the Personalization & Insight Engine of the
loki-moodtracker backend against its natural-language specification.

The Python services are shallowly embedded as executable Lean
definitions:

* `app/services/trust_level_service.py`   → trust state machine,
* `app/core/caching.py`                   → TTL cache with invalidation,
* `app/services/pattern_analysis.py`      → habit/mood correlation engine,
* `app/services/emotion_analysis_service.py` → cyclical / resilience
  analysis.

Numeric values that Python computes with `statistics.mean`,
`statistics.variance` and `/` are modelled exactly as rationals;
Python's `round(x, d)` (round-half-to-even at `d` decimal digits) is
modelled by `pyRound`.  Timestamps are seconds since the Unix epoch as
naturals; `datetime.date()` becomes division by 86400.

The file is organised as definitions first, theorems second.
-/

namespace Loki

/-! ## Rational helpers: sum, mean, variance, Python rounding -/

/-- Sum of a list of rationals. -/
def qsum : List ℚ → ℚ
  | [] => 0
  | x :: xs => x + qsum xs

/-- Embedding of `statistics.mean`: the exact arithmetic mean. -/
def qmean (xs : List ℚ) : ℚ := qsum xs / (xs.length : ℚ)

/-- Embedding of `statistics.variance`: sample variance, denominator
`n - 1`. -/
def qvariance (xs : List ℚ) : ℚ :=
  qsum (xs.map fun x => (x - qmean xs) ^ 2) / ((xs.length - 1 : ℕ) : ℚ)

/-- Round half to even (banker's rounding), as used by Python `round`. -/
def rhe (x : ℚ) : ℤ :=
  if x - (Int.floor x : ℚ) < 1/2 then Int.floor x
  else if 1/2 < x - (Int.floor x : ℚ) then Int.floor x + 1
  else if Even (Int.floor x) then Int.floor x else Int.floor x + 1

/-- Embedding of Python's `round(x, d)`. -/
def pyRound (x : ℚ) (d : ℕ) : ℚ := ((rhe (x * 10 ^ d) : ℚ)) / 10 ^ d

/-! ## Stable insertion sort

Python's `list.sort(key=..., reverse=...)` is a stable sort; any stable
sort produces the same list, so we embed it as stable insertion sort.
Here `le a b = true` means `a` is allowed to precede `b`; an element is
inserted before the first element it may precede, which preserves the
original relative order of key-equal elements exactly as CPython does
(also with `reverse=True`). -/

def insertSorted (le : α → α → Bool) (a : α) : List α → List α
  | [] => [a]
  | b :: bs => if le a b then a :: b :: bs else b :: insertSorted le a bs

def stableSort (le : α → α → Bool) : List α → List α
  | [] => []
  | a :: as => insertSorted le a (stableSort le as)

/-! ## Trust State Machine (`app/services/trust_level_service.py`)

The static `TRUST_LEVELS` table's prose fields (`description`, `tone`,
`approach`) carry no logic and are omitted; `name`, the lower bound of
`range`, and `max_sentences` are kept. -/

/-- Static per-level configuration row of
`TrustLevelService.TRUST_LEVELS`. -/
structure TrustLevelInfo where
  name : String
  rangeLo : ℕ
  maxSentences : ℕ
deriving DecidableEq

/-- Lookup `TRUST_LEVELS.get(nivel, TRUST_LEVELS[1])` with the level-1
default used by `get_trust_level_info`. -/
def trustLevels (nivel : ℕ) : TrustLevelInfo :=
  match nivel with
  | 1 => ⟨"Conociendo", 1, 1⟩
  | 2 => ⟨"Estableciendo", 11, 2⟩
  | 3 => ⟨"Construyendo", 31, 2⟩
  | 4 => ⟨"Consolidado", 61, 2⟩
  | 5 => ⟨"Íntimo", 101, 3⟩
  | _ => ⟨"Conociendo", 1, 1⟩

/-- Embedding of `TrustLevelService.calculate_trust_level`. -/
def calculateTrustLevel (totalInteracciones : ℕ) : ℕ :=
  if totalInteracciones ≤ 10 then 1
  else if totalInteracciones ≤ 30 then 2
  else if totalInteracciones ≤ 60 then 3
  else if totalInteracciones ≤ 100 then 4
  else 5

/-- Trust-relevant columns of the `usuarios` table (`models/mood.py`):
the interaction counter and the stored level. -/
structure Usuario where
  id : ℕ
  totalInteracciones : ℕ
  nivelConfianza : ℕ
deriving DecidableEq

/-- A freshly created user row: column defaults `total_interacciones = 0`
and `nivel_confianza = 1` (`models/mood.py`; `UsuarioCreate` carries
neither field, so every creation path uses the defaults). -/
def newUsuario (id : ℕ) : Usuario := ⟨id, 0, 1⟩

/-- The dict returned by `update_trust_level`. -/
structure TrustUpdateResult where
  usuarioId : ℕ
  totalInteracciones : ℕ
  nivelConfianza : ℕ
  nivelAnterior : ℕ
  nivelCambio : Bool
deriving DecidableEq

/-- Embedding of `TrustLevelService.update_trust_level` on a present
user row: increment the counter, recompute the level, store it, and
return the transition record. -/
def updateTrustLevel (u : Usuario) : Usuario × TrustUpdateResult :=
  let total := u.totalInteracciones + 1
  let nivelAnterior := u.nivelConfianza
  let nivelNuevo := calculateTrustLevel total
  (⟨u.id, total, nivelNuevo⟩,
   ⟨u.id, total, nivelNuevo, nivelAnterior, decide (nivelAnterior < nivelNuevo)⟩)

/-- The dict returned by `get_user_trust_info` (prose fields omitted). -/
structure TrustInfo where
  usuarioId : ℕ
  totalInteracciones : ℕ
  nivelConfianza : ℕ
  nivelNombre : String
  maxSentences : ℕ
  mensajesHastaSiguienteNivel : ℤ
  esNivelMaximo : Bool
deriving DecidableEq

/-- Embedding of `TrustLevelService.get_user_trust_info` on a present
user row.  It reads the *stored* `nivel_confianza` column. -/
def getUserTrustInfo (u : Usuario) : TrustInfo :=
  let info := trustLevels u.nivelConfianza
  let nextLevel := min (u.nivelConfianza + 1) 5
  let nextLevelThreshold := (trustLevels nextLevel).rangeLo
  let mensajesHastaSiguiente : ℤ :=
    max 0 ((nextLevelThreshold : ℤ) - (u.totalInteracciones : ℤ))
  { usuarioId := u.id
    totalInteracciones := u.totalInteracciones
    nivelConfianza := u.nivelConfianza
    nivelNombre := info.name
    maxSentences := info.maxSentences
    mensajesHastaSiguienteNivel :=
      if u.nivelConfianza < nextLevel then mensajesHastaSiguiente else 0
    esNivelMaximo := u.nivelConfianza == 5 }

/-- User states reachable through the repository's writers of the trust
columns: row creation (with the column defaults) and
`update_trust_level`.  No other code path in the repository writes
`total_interacciones` or `nivel_confianza` of the `usuarios` table. -/
inductive ReachableUsuario : Usuario → Prop
  | created (id : ℕ) : ReachableUsuario (newUsuario id)
  | interacted {u : Usuario} :
      ReachableUsuario u → ReachableUsuario (updateTrustLevel u).1

/-! ## Insight Cache (`app/core/caching.py`)

A namespace is a `cachetools.TTLCache` plus a `CacheStats` record.  The
cache key `"usuario:" + str(usuario_id)` is modelled by the id itself
(the formatting is injective).  The monotonic timer becomes an explicit
`now` argument; an entry is live while `now < insertion time + ttl`,
and membership (`key in cache`) respects expiry, as
`TTLCache.__contains__` does. -/

/-- Counters of the `CacheStats` class. -/
structure CacheStats where
  hits : ℕ
  misses : ℕ
  invalidations : ℕ
deriving DecidableEq

def CacheStats.hit (s : CacheStats) : CacheStats :=
  { s with hits := s.hits + 1 }

def CacheStats.miss (s : CacheStats) : CacheStats :=
  { s with misses := s.misses + 1 }

def CacheStats.invalidate (s : CacheStats) : CacheStats :=
  { s with invalidations := s.invalidations + 1 }

structure CacheEntry (V : Type) where
  value : V
  expire : ℕ
deriving DecidableEq

/-- State of a `TTLCache(maxsize=..., ttl=...)`; entries are kept in
insertion order. -/
structure TTLCacheState (V : Type) where
  entries : List (ℕ × CacheEntry V)
  maxsize : ℕ
  ttl : ℕ
deriving DecidableEq

/-- Lookup respecting expiry (`key in cache` followed by `cache[key]`). -/
def ttlLookup (c : TTLCacheState V) (now k : ℕ) : Option V :=
  match c.entries.find? (fun e => e.1 == k) with
  | some e => if now < e.2.expire then some e.2.value else none
  | none => none

/-- Deletion, `del cache[key]`. -/
def ttlDelete (c : TTLCacheState V) (k : ℕ) : TTLCacheState V :=
  { c with entries := c.entries.filter (fun e => !(e.1 == k)) }

/-- Insertion, `cache[key] = value`: replace the key, evict the oldest
entry under size pressure, and stamp the expiry `now + ttl`. -/
def ttlInsert (c : TTLCacheState V) (now k : ℕ) (v : V) : TTLCacheState V :=
  let es := c.entries.filter (fun e => !(e.1 == k))
  let es := if c.maxsize ≤ es.length then es.tail else es
  { c with entries := es ++ [(k, ⟨v, now + c.ttl⟩)] }

/-- One cache namespace: the TTL cache and its stats record. -/
structure NamespaceState (V : Type) where
  cache : TTLCacheState V
  stats : CacheStats
deriving DecidableEq

/-- The `usuario` namespace as configured at module load:
`TTLCache(maxsize=1000, ttl=300)` and zeroed stats. -/
def usuarioCacheInit (V : Type) : NamespaceState V :=
  ⟨⟨[], 1000, 300⟩, ⟨0, 0, 0⟩⟩

/-- The `trust_level` namespace: `TTLCache(maxsize=1000, ttl=600)`. -/
def trustLevelCacheInit (V : Type) : NamespaceState V :=
  ⟨⟨[], 1000, 600⟩, ⟨0, 0, 0⟩⟩

/-- The `cached_usuario` decorator around a compute function: on a live
key it counts a hit and returns the cached value; otherwise it counts a
miss, runs the function, stores a non-`None` result and returns it. -/
def cachedUsuario (func : ℕ → Option V) (st : NamespaceState V)
    (now usuarioId : ℕ) : Option V × NamespaceState V :=
  match ttlLookup st.cache now usuarioId with
  | some v => (some v, { st with stats := st.stats.hit })
  | none =>
    let stats := st.stats.miss
    match func usuarioId with
    | some result =>
        (some result,
         { cache := ttlInsert st.cache now usuarioId result, stats := stats })
    | none => (none, { st with stats := stats })

/-- Embedding of `invalidate_usuario_cache`: only when the key is (live)
in the cache does it delete the entry and bump the invalidation
counter. -/
def invalidateUsuarioCache (st : NamespaceState V) (now usuarioId : ℕ) :
    NamespaceState V :=
  if (ttlLookup st.cache now usuarioId).isSome then
    { cache := ttlDelete st.cache usuarioId, stats := st.stats.invalidate }
  else st

/-- Embedding of `invalidate_trust_level_cache`: identical logic on the
`trust_level` namespace. -/
def invalidateTrustLevelCache (st : NamespaceState V) (now usuarioId : ℕ) :
    NamespaceState V :=
  if (ttlLookup st.cache now usuarioId).isSome then
    { cache := ttlDelete st.cache usuarioId, stats := st.stats.invalidate }
  else st

/-! ## Correlation Engine (`app/services/pattern_analysis.py`)

The ORM tables are embedded as lists of records restricted to the
columns the engine reads; SQLAlchemy query filters become list filters.
The local variables of `_analyze_habit_mood_correlations` (`registros`,
`all_moods`, `habit_dates`, `mood_with_habit`, `mood_without_habit`,
`avg_with`, `avg_without`, `impact`, `confidence`) are named
definitions so that theorems can speak about them. -/

/-- Row of `estados_animo` restricted to the engine's columns. -/
structure EstadoAnimo where
  usuarioId : ℕ
  ts : ℕ
  nivel : ℤ
deriving DecidableEq

/-- Row of `habitos` restricted to the engine's columns. -/
structure Habito where
  id : ℕ
  usuarioId : ℕ
  nombreHabito : String
  categoria : String
  activo : Bool
deriving DecidableEq

/-- Row of `registros_habitos` restricted to the engine's columns. -/
structure RegistroHabito where
  usuarioId : ℕ
  habitoId : ℕ
  ts : ℕ
  completado : Bool
deriving DecidableEq

/-- Database snapshot seen by the analysis services. -/
structure DB where
  estadosAnimo : List EstadoAnimo
  habitos : List Habito
  registrosHabitos : List RegistroHabito
deriving DecidableEq

/-- Calendar date of a timestamp, `timestamp.date()`: the epoch day. -/
def dateOf (ts : ℕ) : ℕ := ts / 86400

/-- Mood-state query shared by `analyze_user_patterns` (`mood_states`)
and the correlation loop (`all_moods`): the user's samples with
`timestamp >= cutoff_date`. -/
def windowMoods (db : DB) (cutoff usuarioId : ℕ) : List EstadoAnimo :=
  db.estadosAnimo.filter fun m => m.usuarioId == usuarioId && cutoff ≤ m.ts

/-- Query for `registros`: the habit's completed registrations in the
window (filtered by `habito_id`, `timestamp`, `completado` only). -/
def registrosCompletados (db : DB) (cutoff habitoId : ℕ) :
    List RegistroHabito :=
  db.registrosHabitos.filter fun r =>
    r.habitoId == habitoId && cutoff ≤ r.ts && r.completado

/-- The set `habit_dates` of dates with a completed registration. -/
def habitDates (db : DB) (cutoff habitoId : ℕ) : List ℕ :=
  (registrosCompletados db cutoff habitoId).map fun r => dateOf r.ts

/-- The `mood_with_habit` partition: levels of window moods whose date
is a habit date. -/
def habitDayMoodSamples (db : DB) (cutoff usuarioId habitoId : ℕ) :
    List ℤ :=
  ((windowMoods db cutoff usuarioId).filter fun m =>
    (habitDates db cutoff habitoId).contains (dateOf m.ts)).map (·.nivel)

/-- The `mood_without_habit` partition: levels of window moods whose
date is not a habit date. -/
def nonHabitDayMoodSamples (db : DB) (cutoff usuarioId habitoId : ℕ) :
    List ℤ :=
  ((windowMoods db cutoff usuarioId).filter fun m =>
    !(habitDates db cutoff habitoId).contains (dateOf m.ts)).map (·.nivel)

/-- The local `avg_with`. -/
def avgMoodOn (db : DB) (cutoff usuarioId habitoId : ℕ) : ℚ :=
  qmean ((habitDayMoodSamples db cutoff usuarioId habitoId).map
    fun n : ℤ => (n : ℚ))

/-- The local `avg_without`. -/
def avgMoodOff (db : DB) (cutoff usuarioId habitoId : ℕ) : ℚ :=
  qmean ((nonHabitDayMoodSamples db cutoff usuarioId habitoId).map
    fun n : ℤ => (n : ℚ))

/-- The local `impact = (avg_with - avg_without) / 10.0`. -/
def corrImpact (db : DB) (cutoff usuarioId habitoId : ℕ) : ℚ :=
  (avgMoodOn db cutoff usuarioId habitoId
    - avgMoodOff db cutoff usuarioId habitoId) / 10

/-- The local
`confidence = min(1.0, (len(mood_with) + len(mood_without)) / 20.0)`. -/
def corrConfidence (db : DB) (cutoff usuarioId habitoId : ℕ) : ℚ :=
  min 1 ((((habitDayMoodSamples db cutoff usuarioId habitoId).length
    + (nonHabitDayMoodSamples db cutoff usuarioId habitoId).length : ℕ) : ℚ)
    / 20)

/-- The dict appended to `correlations` for one habit.  The
`interpretation` string of `_interpret_correlation` is purely
descriptive and omitted. -/
structure Correlation where
  habit : String
  habitId : ℕ
  category : String
  impact : ℚ
  confidence : ℚ
  avgMoodWith : ℚ
  avgMoodWithout : ℚ
  occurrences : ℕ
deriving DecidableEq

/-- One iteration of the habit loop of
`_analyze_habit_mood_correlations`: skip when fewer than 5 completed
registrations, skip when either mood partition is empty, append when
`abs(impact) >= 0.3`. -/
def corrForHabit (db : DB) (cutoff usuarioId : ℕ) (habito : Habito) :
    Option Correlation :=
  if (registrosCompletados db cutoff habito.id).length < 5 then none
  else if (habitDayMoodSamples db cutoff usuarioId habito.id).isEmpty
      || (nonHabitDayMoodSamples db cutoff usuarioId habito.id).isEmpty then
    none
  else if 3/10 ≤ |corrImpact db cutoff usuarioId habito.id| then
    some { habit := habito.nombreHabito
           habitId := habito.id
           category := habito.categoria
           impact := pyRound (corrImpact db cutoff usuarioId habito.id) 3
           confidence := pyRound (corrConfidence db cutoff usuarioId habito.id) 2
           avgMoodWith := pyRound (avgMoodOn db cutoff usuarioId habito.id) 1
           avgMoodWithout := pyRound (avgMoodOff db cutoff usuarioId habito.id) 1
           occurrences := (habitDayMoodSamples db cutoff usuarioId habito.id).length }
  else none

/-- The correlation list built by `_analyze_habit_mood_correlations`
before the persistence step: loop over the user's active habits, then
`correlations.sort(key=lambda x: abs(x['impact']), reverse=True)` —
a stable sort on the already rounded impact. -/
def habitMoodCorrelations (db : DB) (cutoff usuarioId : ℕ) :
    List Correlation :=
  stableSort (fun a b => decide (|b.impact| ≤ |a.impact|))
    ((db.habitos.filter fun h => h.usuarioId == usuarioId && h.activo).filterMap
      (corrForHabit db cutoff usuarioId))

/-- Outcome of `_save_correlations_to_db`: it upserts every reported
correlation and ends in `db.commit()`, with no exception handling.  The
commit is modelled by its outcome; the written `Correlacion` rows have
no effect on the returned report and are not tracked. -/
def saveCorrelationsToDb (commitOk : Bool) : Except Unit Unit :=
  if commitOk then Except.ok () else Except.error ()

/-- Embedding of `_analyze_habit_mood_correlations` including the
persistence step: a raising commit propagates to the caller. -/
def analyzeHabitMoodCorrelations (db : DB) (cutoff usuarioId : ℕ)
    (commitOk : Bool) : Except Unit (List Correlation) :=
  match saveCorrelationsToDb commitOk with
  | Except.ok _ => Except.ok (habitMoodCorrelations db cutoff usuarioId)
  | Except.error e => Except.error e

/-- The dict returned by `analyze_user_patterns`.  `mood_stability`
(a standard deviation, hence irrational), `temporal_patterns`,
`emotional_triggers` and `insights` are not modelled — no claim
concerns them. -/
inductive PatternReport
  | insufficientData (dataPoints minRequired : ℕ)
  | full (dataPoints : ℕ) (averageMood : ℚ) (correlations : List Correlation)
deriving DecidableEq

/-- Embedding of `PatternAnalysisService.analyze_user_patterns`. -/
def analyzeUserPatterns (db : DB) (cutoff usuarioId : ℕ) (commitOk : Bool) :
    Except Unit PatternReport :=
  if (windowMoods db cutoff usuarioId).length < 5 then
    Except.ok (PatternReport.insufficientData
      (windowMoods db cutoff usuarioId).length 5)
  else
    match analyzeHabitMoodCorrelations db cutoff usuarioId commitOk with
    | Except.error e => Except.error e
    | Except.ok correlations =>
        Except.ok (PatternReport.full (windowMoods db cutoff usuarioId).length
          (qmean ((windowMoods db cutoff usuarioId).map
            fun m : EstadoAnimo => (m.nivel : ℚ)))
          correlations)

/-- Concrete habit used by several counterexamples. -/
def exHabito1 : Habito := ⟨1, 1, "ejercicio", "deporte", true⟩

/-- Concrete snapshot: habit 1 completed on days 0–4, one mood sample
(level 10) on day 0 and five mood samples (level 1) on days 10–14. -/
def exDB1 : DB :=
  { estadosAnimo :=
      [⟨1, 100, 10⟩,
       ⟨1, 864000, 1⟩, ⟨1, 950400, 1⟩, ⟨1, 1036800, 1⟩,
       ⟨1, 1123200, 1⟩, ⟨1, 1209600, 1⟩]
    habitos := [exHabito1]
    registrosHabitos :=
      [⟨1, 1, 0, true⟩, ⟨1, 1, 86400, true⟩, ⟨1, 1, 172800, true⟩,
       ⟨1, 1, 259200, true⟩, ⟨1, 1, 345600, true⟩] }

/-- The correlation row that `exDB1` produces. -/
def exCorr1 : Correlation :=
  ⟨"ejercicio", 1, "deporte", 9/10, 3/10, 10, 1, 1⟩

/-! ## Cyclical Pattern Detector and Resilience
(`app/services/emotion_analysis_service.py`)

The mood query of this service orders by timestamp, embedded as the
stable ascending sort `sortByTs` of the window moods.  `datetime`
attribute reads become arithmetic on the epoch-second timestamp. -/

/-- Hour of day, `timestamp.hour`. -/
def hourOf (ts : ℕ) : ℕ := ts % 86400 / 3600

/-- Python `timestamp.weekday()` (Monday = 0); the Unix epoch day 0 was
a Thursday. -/
def weekdayOf (ts : ℕ) : ℕ := (ts / 86400 + 3) % 7

/-- Day of month (1-based), `timestamp.day`, by the standard
civil-from-days conversion of the proleptic Gregorian calendar. -/
def dayOfMonth (ts : ℕ) : ℕ :=
  let z := ts / 86400 + 719468
  let doe := z % 146097
  let yoe := (doe - doe / 1460 + doe / 36524 - doe / 146096) / 365
  let doy := doe - (365 * yoe + yoe / 4 - yoe / 100)
  let mp := (5 * doy + 2) / 153
  doy - (153 * mp + 2) / 5 + 1

/-- The `ORDER BY timestamp` of the mood query. -/
def sortByTs (moods : List EstadoAnimo) : List EstadoAnimo :=
  stableSort (fun a b => decide (a.ts ≤ b.ts)) moods

/-- One bucket value of the pattern dicts: `avg_mood` (rounded to one
digit) and `count`. -/
structure BucketStat where
  avgMood : ℚ
  count : ℕ
deriving DecidableEq

/-- Embedding of `_analyze_daily_pattern`: the hours (0–23) that hold
at least one sample, in ascending order, with their bucket stats. -/
def analyzeDailyPattern (moods : List EstadoAnimo) :
    List (ℕ × BucketStat) :=
  (List.range 24).filterMap fun hour =>
    let group := moods.filter fun m => hourOf m.ts == hour
    if group.isEmpty then none
    else some (hour,
      ⟨pyRound (qmean (group.map fun m : EstadoAnimo => (m.nivel : ℚ))) 1,
       group.length⟩)

/-- Embedding of `_analyze_weekly_pattern` (weekdays 0–6). -/
def analyzeWeeklyPattern (moods : List EstadoAnimo) :
    List (ℕ × BucketStat) :=
  (List.range 7).filterMap fun day =>
    let group := moods.filter fun m => weekdayOf m.ts == day
    if group.isEmpty then none
    else some (day,
      ⟨pyRound (qmean (group.map fun m : EstadoAnimo => (m.nivel : ℚ))) 1,
       group.length⟩)

/-- Embedding of `_analyze_monthly_pattern`
(`week_of_month = (day - 1) // 7 + 1`, buckets 1–4). -/
def analyzeMonthlyPattern (moods : List EstadoAnimo) :
    List (ℕ × BucketStat) :=
  ((List.range 4).map (· + 1)).filterMap fun week =>
    let group := moods.filter fun m => (dayOfMonth m.ts - 1) / 7 + 1 == week
    if group.isEmpty then none
    else some (week,
      ⟨pyRound (qmean (group.map fun m : EstadoAnimo => (m.nivel : ℚ))) 1,
       group.length⟩)

/-- Embedding of `_detect_predominant_cycle`; an empty monthly dict is
falsy in Python, hence the `isEmpty` guard. -/
def detectPredominantCycle (daily weekly : List (ℕ × BucketStat))
    (monthly : Option (List (ℕ × BucketStat))) : String :=
  let dailyMoods := daily.map fun v => v.2.avgMood
  let weeklyMoods := weekly.map fun v => v.2.avgMood
  if dailyMoods.isEmpty || weeklyMoods.isEmpty then "unknown"
  else
    let dailyVar := if 1 < dailyMoods.length then qvariance dailyMoods else 0
    let weeklyVar := if 1 < weeklyMoods.length then qvariance weeklyMoods else 0
    let monthlyWins : Bool :=
      match monthly with
      | some mp =>
          if mp.isEmpty then false
          else
            let monthlyMoods := mp.map fun v => v.2.avgMood
            let monthlyVar :=
              if 1 < monthlyMoods.length then qvariance monthlyMoods else 0
            decide (dailyVar < monthlyVar) && decide (weeklyVar < monthlyVar)
      | none => false
    if monthlyWins then "monthly"
    else if weeklyVar < dailyVar then "daily"
    else "weekly"

/-- The local `low_moods` of `_predict_low_mood_time`. -/
def lowMoodsOf (moods : List EstadoAnimo) : List EstadoAnimo :=
  moods.filter fun m => decide (m.nivel ≤ 4)

/-- The local `intervals`: day-truncated gaps between consecutive low
moods, keeping only the strictly positive ones. -/
def lowMoodIntervals (moods : List EstadoAnimo) : List ℕ :=
  ((lowMoodsOf moods).zip (lowMoodsOf moods).tail).filterMap fun p =>
    if 0 < (p.2.ts - p.1.ts) / 86400 then some ((p.2.ts - p.1.ts) / 86400)
    else none

/-- Embedding of `_predict_low_mood_time`; the predicted datetime
`last_low + timedelta(days=avg_interval)` is represented in (rational)
epoch seconds. -/
def predictLowMoodTime (moods : List EstadoAnimo)
    (predominantCycle : String) : Option ℚ :=
  if moods.isEmpty || predominantCycle == "unknown" then none
  else if (lowMoodsOf moods).isEmpty then none
  else if 2 ≤ (lowMoodsOf moods).length then
    if (lowMoodIntervals moods).isEmpty then none
    else
      match (lowMoodsOf moods).getLast? with
      | some lastLow =>
          some ((lastLow.ts : ℚ)
            + qmean ((lowMoodIntervals moods).map fun n : ℕ => (n : ℚ)) * 86400)
      | none => none
  else none

/-- The dict returned by `detect_emotional_cycles`. -/
inductive CycleReport
  | error (msg : String)
  | report (dailyPattern weeklyPattern : List (ℕ × BucketStat))
      (monthlyPattern : Option (List (ℕ × BucketStat)))
      (predominantCycle : String)
      (nextLowMoodPrediction : Option ℚ)
deriving DecidableEq

/-- Whether `detect_emotional_cycles` produced a report rather than the
insufficient-data error dict. -/
def cycleIsReport : CycleReport → Bool
  | CycleReport.report _ _ _ _ _ => true
  | CycleReport.error _ => false

/-- The `next_low_mood_prediction` entry of a cycle report (`none` on
the error dict, which carries no such key). -/
def cycleNextLowMoodPrediction : CycleReport → Option ℚ
  | CycleReport.report _ _ _ _ p => p
  | CycleReport.error _ => none

/-- Embedding of `detect_emotional_cycles`. -/
def detectEmotionalCycles (db : DB) (cutoff usuarioId : ℕ) : CycleReport :=
  if (sortByTs (windowMoods db cutoff usuarioId)).length < 5 then
    CycleReport.error "Datos insuficientes para análisis cíclico"
  else
    let moods := sortByTs (windowMoods db cutoff usuarioId)
    let daily := analyzeDailyPattern moods
    let weekly := analyzeWeeklyPattern moods
    let monthly :=
      if 20 < moods.length then some (analyzeMonthlyPattern moods) else none
    let predominant := detectPredominantCycle daily weekly monthly
    CycleReport.report daily weekly monthly predominant
      (predictLowMoodTime moods predominant)

/-- One closed crisis period of `analyze_resilience`, with the
recovery timedelta in seconds. -/
structure CrisisPeriod where
  startTs : ℕ
  recoverySeconds : ℕ
  finalMood : ℤ
deriving DecidableEq

/-- The crisis scan of `analyze_resilience`: a period opens at a sample
with level ≤ 4 while not in crisis, and closes at the first later
sample with level > 6; the `Option` argument is the
`in_crisis`/`crisis_start` pair. -/
def findLowMoodPeriods :
    List EstadoAnimo → Option EstadoAnimo → List CrisisPeriod
  | [], _ => []
  | m :: ms, none =>
      if m.nivel ≤ 4 then findLowMoodPeriods ms (some m)
      else findLowMoodPeriods ms none
  | m :: ms, some start =>
      if 6 < m.nivel then
        ⟨start.ts, m.ts - start.ts, m.nivel⟩ :: findLowMoodPeriods ms none
      else findLowMoodPeriods ms (some start)

/-- The dict returned by `analyze_resilience`; timedeltas in seconds,
`recovery_strategies` (habit names seen during recovery windows) not
modelled — no claim concerns it. -/
inductive ResilienceReport
  | error (msg : String)
  | report (avgRecoverySeconds : ℚ) (recoverySuccessRate : ℚ)
      (fastestRecoverySeconds slowestRecoverySeconds : ℕ)
      (recoveryPeriodsAnalyzed : ℕ) (resilienceScore : ℚ)
deriving DecidableEq

/-- Embedding of `analyze_resilience`. -/
def analyzeResilience (db : DB) (cutoff usuarioId : ℕ) : ResilienceReport :=
  if (sortByTs (windowMoods db cutoff usuarioId)).length < 5 then
    ResilienceReport.error "Datos insuficientes para análisis de resiliencia"
  else
    match findLowMoodPeriods (sortByTs (windowMoods db cutoff usuarioId)) none with
    | [] => ResilienceReport.error "No hay períodos de bajo ánimo registrados"
    | p :: ps =>
        let recoveryTimes := (p :: ps).map fun q => q.recoverySeconds
        let finalMoods := (p :: ps).map fun q => q.finalMood
        let avgRecovery := qmean (recoveryTimes.map fun n : ℕ => (n : ℚ))
        let successRate :=
          ((finalMoods.filter fun m => decide (6 ≤ m)).length : ℚ)
            / (finalMoods.length : ℚ)
        let resilienceScore := min 10 (successRate * 10 - avgRecovery / 86400)
        ResilienceReport.report avgRecovery (pyRound successRate 2)
          (recoveryTimes.foldl min p.recoverySeconds)
          (recoveryTimes.foldl max p.recoverySeconds)
          (p :: ps).length
          (pyRound (max 0 resilienceScore) 1)

/-- Concrete snapshot for the prediction counterexample: five mood
samples, two of them crisis samples (levels 3 and 4) within the same
calendar day. -/
def exDB9 : DB :=
  { estadosAnimo :=
      [⟨1, 0, 8⟩, ⟨1, 86400, 3⟩, ⟨1, 90000, 4⟩,
       ⟨1, 172800, 7⟩, ⟨1, 259200, 9⟩]
    habitos := []
    registrosHabitos := [] }

/-- Concrete snapshot for the resilience witness: one crisis period
(level 3 at day 0) closed at level 8 on day 2. -/
def exDB10 : DB :=
  { estadosAnimo :=
      [⟨1, 0, 3⟩, ⟨1, 86400, 5⟩, ⟨1, 172800, 8⟩,
       ⟨1, 259200, 6⟩, ⟨1, 345600, 7⟩]
    habitos := []
    registrosHabitos := [] }

/-! ## Theorems -/

/-! ### Rounding and mean bounds -/

theorem floor_le_rhe (x : ℚ) : Int.floor x ≤ rhe x := by
  unfold rhe
  split
  · exact le_refl _
  · split
    · omega
    · split <;> omega

theorem rhe_le_floor_add_one (x : ℚ) : rhe x ≤ Int.floor x + 1 := by
  unfold rhe
  split
  · omega
  · split
    · omega
    · split <;> omega

theorem le_rhe_of_int_le {n : ℤ} {x : ℚ} (h : (n : ℚ) ≤ x) : n ≤ rhe x := by
  have hf : n ≤ Int.floor x := Int.le_floor.2 h
  exact le_trans hf (floor_le_rhe x)

theorem rhe_le_of_le_int {n : ℤ} {x : ℚ} (h : x ≤ (n : ℚ)) : rhe x ≤ n := by
  rcases lt_or_eq_of_le h with hlt | heq
  · have hf : Int.floor x ≤ n := by
      have := Int.floor_mono h
      rwa [Int.floor_intCast] at this
    rcases lt_or_eq_of_le hf with hflt | hfeq
    · have := rhe_le_floor_add_one x
      omega
    · -- floor x = n together with x < n contradicts floor x ≤ x
      exfalso
      have h1 : (n : ℚ) ≤ x := by
        have := Int.floor_le x
        rw [hfeq] at this
        exact_mod_cast this
      exact absurd hlt (not_lt.2 h1)
  · subst heq
    unfold rhe
    rw [Int.floor_intCast, sub_self]
    norm_num

/-- Upper bound transfer for Python rounding. -/
theorem pyRound_le {x : ℚ} {d : ℕ} {n : ℤ} (h : x * 10 ^ d ≤ (n : ℚ)) :
    pyRound x d ≤ (n : ℚ) / 10 ^ d := by
  unfold pyRound
  have hr : ((rhe (x * 10 ^ d) : ℤ) : ℚ) ≤ (n : ℚ) := by
    exact_mod_cast rhe_le_of_le_int h
  have hpos : (0 : ℚ) < 10 ^ d := by positivity
  exact div_le_div_of_nonneg_right hr hpos.le

/-- Lower bound transfer for Python rounding. -/
theorem le_pyRound {x : ℚ} {d : ℕ} {n : ℤ} (h : (n : ℚ) ≤ x * 10 ^ d) :
    (n : ℚ) / 10 ^ d ≤ pyRound x d := by
  unfold pyRound
  have hr : (n : ℚ) ≤ ((rhe (x * 10 ^ d) : ℤ) : ℚ) := by
    exact_mod_cast le_rhe_of_int_le h
  have hpos : (0 : ℚ) < 10 ^ d := by positivity
  exact div_le_div_of_nonneg_right hr hpos.le

/-- Elements of a list bounded above bound the sum above. -/
theorem qsum_le_of_le {xs : List ℚ} {hi : ℚ}
    (h : ∀ x ∈ xs, x ≤ hi) : qsum xs ≤ (xs.length : ℚ) * hi := by
  induction xs with
  | nil => simp [qsum]
  | cons a as ih =>
    have ha : a ≤ hi := h a (List.mem_cons_self a as)
    have has : qsum as ≤ (as.length : ℚ) * hi :=
      ih fun x hx => h x (List.mem_cons_of_mem a hx)
    simp only [qsum, List.length_cons]
    push_cast
    nlinarith

/-- Elements of a list bounded below bound the sum below. -/
theorem le_qsum_of_le {xs : List ℚ} {lo : ℚ}
    (h : ∀ x ∈ xs, lo ≤ x) : (xs.length : ℚ) * lo ≤ qsum xs := by
  induction xs with
  | nil => simp [qsum]
  | cons a as ih =>
    have ha : lo ≤ a := h a (List.mem_cons_self a as)
    have has : (as.length : ℚ) * lo ≤ qsum as :=
      ih fun x hx => h x (List.mem_cons_of_mem a hx)
    simp only [qsum, List.length_cons]
    push_cast
    nlinarith

/-- The mean of a nonempty list lies between any uniform bounds. -/
theorem qmean_mem_Icc {xs : List ℚ} {lo hi : ℚ}
    (hne : xs ≠ []) (h : ∀ x ∈ xs, lo ≤ x ∧ x ≤ hi) :
    lo ≤ qmean xs ∧ qmean xs ≤ hi := by
  have hlen : 0 < (xs.length : ℚ) := by
    have : 0 < xs.length := List.length_pos.2 hne
    exact_mod_cast this
  have hsum_le : qsum xs ≤ (xs.length : ℚ) * hi :=
    qsum_le_of_le fun x hx => (h x hx).2
  have hle_sum : (xs.length : ℚ) * lo ≤ qsum xs :=
    le_qsum_of_le fun x hx => (h x hx).1
  constructor
  · rw [qmean, le_div_iff₀ hlen]
    linarith
  · rw [qmean, div_le_iff₀ hlen]
    linarith

/-! ### Sorting lemmas -/

theorem mem_insertSorted {le : α → α → Bool} {a x : α} {l : List α} :
    x ∈ insertSorted le a l ↔ x = a ∨ x ∈ l := by
  induction l with
  | nil => simp [insertSorted]
  | cons b bs ih =>
    unfold insertSorted
    split
    · simp
    · simp only [List.mem_cons, ih]
      tauto

theorem mem_stableSort {le : α → α → Bool} {x : α} {l : List α} :
    x ∈ stableSort le l ↔ x ∈ l := by
  induction l with
  | nil => simp [stableSort]
  | cons a as ih =>
    unfold stableSort
    rw [mem_insertSorted]
    simp [ih]

theorem pairwise_insertSorted {le : α → α → Bool}
    (total : ∀ a b, le a b = true ∨ le b a = true)
    (trans : ∀ a b c, le a b = true → le b c = true → le a c = true)
    {a : α} {l : List α}
    (hl : l.Pairwise (fun x y => le x y = true)) :
    (insertSorted le a l).Pairwise (fun x y => le x y = true) := by
  induction l with
  | nil => simp [insertSorted]
  | cons b bs ih =>
    unfold insertSorted
    rcases List.pairwise_cons.1 hl with ⟨hb, hbs⟩
    split
    · rename_i hab
      refine List.pairwise_cons.2 ⟨?_, hl⟩
      intro y hy
      rcases List.mem_cons.1 hy with rfl | hy'
      · exact hab
      · exact trans a b y hab (hb y hy')
    · rename_i hab
      have hba : le b a = true := by
        rcases total a b with h | h
        · exact absurd h hab
        · exact h
      refine List.pairwise_cons.2 ⟨?_, ih hbs⟩
      intro y hy
      rcases mem_insertSorted.1 hy with rfl | hy'
      · exact hba
      · exact hb y hy'

theorem pairwise_stableSort {le : α → α → Bool}
    (total : ∀ a b, le a b = true ∨ le b a = true)
    (trans : ∀ a b c, le a b = true → le b c = true → le a c = true)
    (l : List α) :
    (stableSort le l).Pairwise (fun x y => le x y = true) := by
  induction l with
  | nil => simp [stableSort]
  | cons a as ih =>
    unfold stableSort
    exact pairwise_insertSorted total trans ih

/-! ### Trust State Machine -/

/-- In every reachable state the stored level equals the step function
of the counter. -/
theorem reachable_nivel_eq_calc {u : Usuario} (h : ReachableUsuario u) :
    u.nivelConfianza = calculateTrustLevel u.totalInteracciones := by
  induction h with
  | created id => rfl
  | interacted _ _ => rfl

/-- C5: `calculate_trust_level` is a pure, non-decreasing step function
of the interaction count with the stated boundary values
`level(10)=1, level(11)=2, level(30)=2, level(31)=3, level(60)=3,
level(61)=4, level(100)=4, level(101)=5`; determinism is immediate
because the embedding is a function of its argument alone. -/
theorem C5_calculate_trust_level_step :
    (∀ m n : ℕ, m ≤ n → calculateTrustLevel m ≤ calculateTrustLevel n)
    ∧ calculateTrustLevel 10 = 1 ∧ calculateTrustLevel 11 = 2
    ∧ calculateTrustLevel 30 = 2 ∧ calculateTrustLevel 31 = 3
    ∧ calculateTrustLevel 60 = 3 ∧ calculateTrustLevel 61 = 4
    ∧ calculateTrustLevel 100 = 4 ∧ calculateTrustLevel 101 = 5 := by
  refine ⟨?_, by decide, by decide, by decide, by decide, by decide,
    by decide, by decide, by decide⟩
  intro m n h
  unfold calculateTrustLevel
  repeat' split
  all_goals omega

/-- Witness for C5 at a concrete pair of counts. -/
theorem C5_calculate_trust_level_step_witness :
    calculateTrustLevel 7 ≤ calculateTrustLevel 25
      ∧ calculateTrustLevel 25 = 2 :=
  ⟨C5_calculate_trust_level_step.1 7 25 (by decide), by decide⟩

/-- C6: in every reachable user state, the level reported by
`get_user_trust_info` and by `update_trust_level` equals
`calculate_trust_level` of the corresponding interaction count — the
stored level never drifts from the counter. -/
theorem C6_trust_level_never_drifts :
    ∀ u : Usuario, ReachableUsuario u →
      (getUserTrustInfo u).nivelConfianza
          = calculateTrustLevel u.totalInteracciones
        ∧ (updateTrustLevel u).2.nivelConfianza
          = calculateTrustLevel (updateTrustLevel u).1.totalInteracciones := by
  intro u h
  exact ⟨reachable_nivel_eq_calc h, rfl⟩

/-- Witness for C6: a user created and then updated once reports level
`calculate_trust_level 1 = 1`. -/
theorem C6_trust_level_never_drifts_witness :
    (getUserTrustInfo (updateTrustLevel (newUsuario 1)).1).nivelConfianza
        = calculateTrustLevel (updateTrustLevel (newUsuario 1)).1.totalInteracciones
      ∧ (getUserTrustInfo (updateTrustLevel (newUsuario 1)).1).nivelConfianza
        = 1 :=
  ⟨(C6_trust_level_never_drifts _
      (ReachableUsuario.interacted (ReachableUsuario.created 1))).1, by decide⟩

/-! ### Insight Cache -/

theorem ttlLookup_ttlDelete (c : TTLCacheState V) (now k : ℕ) :
    ttlLookup (ttlDelete c k) now k = none := by
  unfold ttlLookup ttlDelete
  have h : (c.entries.filter (fun e => !(e.1 == k))).find? (fun e => e.1 == k)
      = none := by
    rw [List.find?_eq_none]
    intro e he
    have := List.of_mem_filter he
    simpa using this
  simp [h]

theorem ttlLookup_none_mono {c : TTLCacheState V} {now now' k : ℕ}
    (h : ttlLookup c now k = none) (hle : now ≤ now') :
    ttlLookup c now' k = none := by
  unfold ttlLookup at h ⊢
  cases hf : c.entries.find? (fun e => e.1 == k) with
  | none => rfl
  | some e =>
    rw [hf] at h
    dsimp only at h ⊢
    by_cases hlt : now < e.2.expire
    · rw [if_pos hlt] at h
      cases h
    · have hn : ¬ now' < e.2.expire := by omega
      rw [if_neg hn]

/-- C3: once `invalidate_usuario_cache(uid)` returns, the next
`cached_usuario` call for that user at any later time is a miss: the
compute function runs, its result (not any previously cached value) is
returned, the miss counter increases and the hit counter does not. -/
theorem C3_invalidate_then_get_misses (V : Type) (func : ℕ → Option V)
    (st : NamespaceState V) (now now' uid : ℕ) (h : now ≤ now') :
    (cachedUsuario func (invalidateUsuarioCache st now uid) now' uid).1
        = func uid
      ∧ (cachedUsuario func (invalidateUsuarioCache st now uid) now' uid).2.stats.misses
        = (invalidateUsuarioCache st now uid).stats.misses + 1
      ∧ (cachedUsuario func (invalidateUsuarioCache st now uid) now' uid).2.stats.hits
        = (invalidateUsuarioCache st now uid).stats.hits := by
  have hmiss :
      ttlLookup (invalidateUsuarioCache st now uid).cache now' uid = none := by
    unfold invalidateUsuarioCache
    split
    · exact ttlLookup_ttlDelete _ _ _
    · rename_i hns
      have h0 : ttlLookup st.cache now uid = none := by
        cases hl : ttlLookup st.cache now uid with
        | none => rfl
        | some v => simp [hl] at hns
      exact ttlLookup_none_mono h0 h
  unfold cachedUsuario
  rw [hmiss]
  cases hfu : func uid with
  | some r => exact ⟨rfl, rfl, rfl⟩
  | none => exact ⟨rfl, rfl, rfl⟩

/-- Witness for C3: user 7 is cached with value 99; after invalidation
the wrapped call returns the freshly computed 42 and counts a miss. -/
theorem C3_invalidate_then_get_misses_witness :
    (cachedUsuario (fun _ => some 42)
        (invalidateUsuarioCache
          ⟨⟨[(7, ⟨99, 300⟩)], 1000, 300⟩, ⟨1, 1, 0⟩⟩ 0 7) 0 7).1 = some 42
      ∧ (cachedUsuario (fun _ => some 42)
        (invalidateUsuarioCache
          ⟨⟨[(7, ⟨99, 300⟩)], 1000, 300⟩, ⟨1, 1, 0⟩⟩ 0 7) 0 7).2.stats.misses
        = (invalidateUsuarioCache
          ⟨⟨[(7, ⟨99, 300⟩)], 1000, 300⟩, ⟨1, 1, 0⟩⟩ 0 7).stats.misses + 1 :=
  ⟨(C3_invalidate_then_get_misses ℕ (fun _ => some 42)
      ⟨⟨[(7, ⟨99, 300⟩)], 1000, 300⟩, ⟨1, 1, 0⟩⟩ 0 0 7 (by decide)).1,
   (C3_invalidate_then_get_misses ℕ (fun _ => some 42)
      ⟨⟨[(7, ⟨99, 300⟩)], 1000, 300⟩, ⟨1, 1, 0⟩⟩ 0 0 7 (by decide)).2.1⟩

/-- C7 counterexample: invalidating a key that is not resident leaves
the invalidation counter at 0, although the claim requires every call
to increment it. -/
theorem C7_counterexample :
    ttlLookup (usuarioCacheInit ℕ).cache 0 1 = none
      ∧ (invalidateUsuarioCache (usuarioCacheInit ℕ) 0 1).stats.invalidations
        = 0 := by
  decide

/-- C7 (amended): the invalidation functions always leave the key
missing, but they delete the entry and increment the invalidation
counter only when the key was live; on an absent or expired key they
are a no-op and the counter is unchanged. -/
theorem C7_invalidate_counts_only_if_present (V : Type)
    (st : NamespaceState V) (now uid : ℕ) :
    ttlLookup (invalidateUsuarioCache st now uid).cache now uid = none
      ∧ (invalidateUsuarioCache st now uid).stats.invalidations
        = (if (ttlLookup st.cache now uid).isSome then
            st.stats.invalidations + 1 else st.stats.invalidations)
      ∧ (invalidateTrustLevelCache st now uid).stats.invalidations
        = (if (ttlLookup st.cache now uid).isSome then
            st.stats.invalidations + 1 else st.stats.invalidations) := by
  refine ⟨?_, ?_, ?_⟩
  · unfold invalidateUsuarioCache
    split
    · exact ttlLookup_ttlDelete _ _ _
    · rename_i hns
      cases hl : ttlLookup st.cache now uid with
      | none => rfl
      | some v => simp [hl] at hns
  · unfold invalidateUsuarioCache
    split <;> rename_i hs <;> simp [hs, CacheStats.invalidate]
  · unfold invalidateTrustLevelCache
    split <;> rename_i hs <;> simp [hs, CacheStats.invalidate]

/-! ### Correlation Engine -/

theorem length_filter_add_length_filter_not (l : List α) (p : α → Bool) :
    (l.filter p).length + (l.filter fun a => !(p a)).length = l.length := by
  induction l with
  | nil => rfl
  | cons a as ih => cases h : p a <;> simp [List.filter_cons, h] <;> omega

/-- The two mood partitions always split exactly the window's moods. -/
theorem habitDay_add_nonHabitDay_length (db : DB) (cutoff uid hid : ℕ) :
    (habitDayMoodSamples db cutoff uid hid).length
      + (nonHabitDayMoodSamples db cutoff uid hid).length
      = (windowMoods db cutoff uid).length := by
  unfold habitDayMoodSamples nonHabitDayMoodSamples
  rw [List.length_map, List.length_map]
  exact length_filter_add_length_filter_not _ _

theorem mem_habitDayMoodSamples {db : DB} {cutoff uid hid : ℕ} {x : ℤ}
    (hx : x ∈ habitDayMoodSamples db cutoff uid hid) :
    ∃ m ∈ db.estadosAnimo, m.nivel = x := by
  unfold habitDayMoodSamples at hx
  rcases List.mem_map.1 hx with ⟨m, hm, rfl⟩
  exact ⟨m, List.mem_of_mem_filter (List.mem_of_mem_filter hm), rfl⟩

theorem mem_nonHabitDayMoodSamples {db : DB} {cutoff uid hid : ℕ} {x : ℤ}
    (hx : x ∈ nonHabitDayMoodSamples db cutoff uid hid) :
    ∃ m ∈ db.estadosAnimo, m.nivel = x := by
  unfold nonHabitDayMoodSamples at hx
  rcases List.mem_map.1 hx with ⟨m, hm, rfl⟩
  exact ⟨m, List.mem_of_mem_filter (List.mem_of_mem_filter hm), rfl⟩

/-- Inversion of the habit-loop body: what must hold of a habit whose
correlation was appended. -/
theorem corrForHabit_eq_some {db : DB} {cutoff uid : ℕ} {habito : Habito}
    {c : Correlation}
    (hc : corrForHabit db cutoff uid habito = some c) :
    c.habitId = habito.id
      ∧ 5 ≤ (registrosCompletados db cutoff habito.id).length
      ∧ habitDayMoodSamples db cutoff uid habito.id ≠ []
      ∧ nonHabitDayMoodSamples db cutoff uid habito.id ≠ []
      ∧ 3/10 ≤ |corrImpact db cutoff uid habito.id|
      ∧ c.impact = pyRound (corrImpact db cutoff uid habito.id) 3
      ∧ c.confidence = pyRound (corrConfidence db cutoff uid habito.id) 2 := by
  unfold corrForHabit at hc
  split at hc
  · cases hc
  · rename_i hreg
    split at hc
    · cases hc
    · rename_i hne
      split at hc
      · rename_i hth
        injection hc with hc
        subst hc
        refine ⟨rfl, by omega, ?_, ?_, hth, rfl, rfl⟩
        · intro h0
          exact hne (by simp [h0])
        · intro h0
          exact hne (by simp [h0])
      · cases hc

/-- Inversion of membership in the built correlation list. -/
theorem mem_habitMoodCorrelations {db : DB} {cutoff uid : ℕ}
    {c : Correlation} (hc : c ∈ habitMoodCorrelations db cutoff uid) :
    ∃ habito : Habito,
      (habito ∈ db.habitos ∧ habito.usuarioId = uid ∧ habito.activo = true)
        ∧ corrForHabit db cutoff uid habito = some c := by
  unfold habitMoodCorrelations at hc
  rw [mem_stableSort] at hc
  rcases List.mem_filterMap.1 hc with ⟨hab, hmem, hsome⟩
  have h1 := List.mem_of_mem_filter hmem
  have h2 := List.of_mem_filter hmem
  simp only [Bool.and_eq_true, beq_iff_eq] at h2
  exact ⟨hab, ⟨h1, h2.1, h2.2⟩, hsome⟩

/-- Inversion of a full report: its correlation list is the one built
by the loop, and the window had at least 5 samples. -/
theorem analyzeUserPatterns_ok_full {db : DB} {cutoff uid : ℕ}
    {commitOk : Bool} {dp : ℕ} {avg : ℚ} {corrs : List Correlation}
    (h : analyzeUserPatterns db cutoff uid commitOk
      = Except.ok (PatternReport.full dp avg corrs)) :
    corrs = habitMoodCorrelations db cutoff uid
      ∧ 5 ≤ (windowMoods db cutoff uid).length := by
  unfold analyzeUserPatterns at h
  split at h
  · simp at h
  · rename_i hge
    unfold analyzeHabitMoodCorrelations saveCorrelationsToDb at h
    cases commitOk with
    | false => simp at h
    | true =>
      simp only [if_true] at h
      simp at h
      exact ⟨h.2.2.symm, by omega⟩

/-- Evaluation rule for `pyRound` at exactly representable values. -/
theorem pyRound_intCast {x : ℚ} {d : ℕ} {n : ℤ} (h : x * 10 ^ d = (n : ℚ)) :
    pyRound x d = (n : ℚ) / 10 ^ d := by
  unfold pyRound rhe
  rw [h, Int.floor_intCast, sub_self]
  norm_num

theorem exDB1_habitDay : habitDayMoodSamples exDB1 0 1 1 = [10] := by decide

theorem exDB1_nonHabitDay :
    nonHabitDayMoodSamples exDB1 0 1 1 = [1, 1, 1, 1, 1] := by decide

theorem exDB1_avgOn : avgMoodOn exDB1 0 1 1 = 10 := by
  unfold avgMoodOn
  rw [exDB1_habitDay]
  norm_num [qmean, qsum]

theorem exDB1_avgOff : avgMoodOff exDB1 0 1 1 = 1 := by
  unfold avgMoodOff
  rw [exDB1_nonHabitDay]
  norm_num [qmean, qsum]

theorem exDB1_impact : corrImpact exDB1 0 1 1 = 9/10 := by
  unfold corrImpact
  rw [exDB1_avgOn, exDB1_avgOff]
  norm_num

theorem exDB1_confidence : corrConfidence exDB1 0 1 1 = 3/10 := by
  unfold corrConfidence
  rw [exDB1_habitDay, exDB1_nonHabitDay]
  norm_num

theorem exDB1_corrForHabit :
    corrForHabit exDB1 0 1 exHabito1 = some exCorr1 := by
  have e1 : pyRound (9/10 : ℚ) 3 = 9/10 := by
    rw [pyRound_intCast (n := 900) (by norm_num)]
    norm_num
  have e2 : pyRound (3/10 : ℚ) 2 = 3/10 := by
    rw [pyRound_intCast (n := 30) (by norm_num)]
    norm_num
  have e3 : pyRound (10 : ℚ) 1 = 10 := by
    rw [pyRound_intCast (n := 100) (by norm_num)]
    norm_num
  have e4 : pyRound (1 : ℚ) 1 = 1 := by
    rw [pyRound_intCast (n := 10) (by norm_num)]
    norm_num
  have hth : (3 : ℚ)/10 ≤ |corrImpact exDB1 0 1 1| := by
    rw [exDB1_impact, abs_of_nonneg (by norm_num : (0 : ℚ) ≤ 9/10)]
    norm_num
  have hid : exHabito1.id = 1 := rfl
  unfold corrForHabit
  rw [hid, if_neg (by decide), if_neg (by decide), if_pos hth,
    exDB1_impact, exDB1_confidence, exDB1_avgOn, exDB1_avgOff,
    exDB1_habitDay, e1, e2, e3, e4]
  rfl

theorem exDB1_correlations : habitMoodCorrelations exDB1 0 1 = [exCorr1] := by
  unfold habitMoodCorrelations
  rw [show exDB1.habitos.filter (fun h => h.usuarioId == 1 && h.activo)
      = [exHabito1] from by decide]
  simp [List.filterMap_cons, exDB1_corrForHabit, stableSort, insertSorted]

theorem exDB1_report :
    analyzeUserPatterns exDB1 0 1 true
      = Except.ok (PatternReport.full 6 (5/2) [exCorr1]) := by
  have havg : qmean ((windowMoods exDB1 0 1).map
      fun m : EstadoAnimo => (m.nivel : ℚ)) = 5/2 := by
    rw [show windowMoods exDB1 0 1 = exDB1.estadosAnimo from by decide]
    norm_num [exDB1, qmean, qsum]
  unfold analyzeUserPatterns analyzeHabitMoodCorrelations saveCorrelationsToDb
  rw [if_neg (by decide), if_pos rfl]
  dsimp only
  rw [exDB1_correlations, havg,
    show (windowMoods exDB1 0 1).length = 6 from by decide]

/-- C1 counterexample: in `exDB1` the habit-day partition of habit 1 has
a single mood sample — fewer than 5 — yet habit 1 appears in the
correlation list of the returned report (the code only requires 5
completed registrations and nonempty partitions). -/
theorem C1_counterexample :
    (habitDayMoodSamples exDB1 0 1 1).length < 5
      ∧ analyzeUserPatterns exDB1 0 1 true
        = Except.ok (PatternReport.full 6 (5/2) [exCorr1])
      ∧ exCorr1.habitId = 1 :=
  ⟨by decide, exDB1_report, rfl⟩

/-- C1 (amended): a habit is absent from the correlation list of the
returned report whenever its id has fewer than 5 *completed habit
registrations* in the window — the actual skip condition — or either
the habit-day or the non-habit-day mood partition is empty; a nonempty
partition with fewer than 5 samples does not exclude the habit. -/
theorem C1_habit_absent_when_few_registrations
    (db : DB) (cutoff uid hid : ℕ) (commitOk : Bool) (dp : ℕ) (avg : ℚ)
    (corrs : List Correlation) (c : Correlation)
    (hskip : (registrosCompletados db cutoff hid).length < 5
      ∨ habitDayMoodSamples db cutoff uid hid = []
      ∨ nonHabitDayMoodSamples db cutoff uid hid = [])
    (hr : analyzeUserPatterns db cutoff uid commitOk
      = Except.ok (PatternReport.full dp avg corrs))
    (hc : c ∈ corrs) :
    c.habitId ≠ hid := by
  rcases analyzeUserPatterns_ok_full hr with ⟨hcorrs, -⟩
  subst hcorrs
  rcases mem_habitMoodCorrelations hc with ⟨hab, -, hsome⟩
  rcases corrForHabit_eq_some hsome with ⟨hid_eq, hge, hneOn, hneOff, -⟩
  intro heq
  have h2 : hab.id = hid := by rw [← hid_eq, heq]
  rw [h2] at hge hneOn hneOff
  rcases hskip with h | h | h
  · omega
  · exact hneOn h
  · exact hneOff h

/-- Witness for the amended C1: no completed registrations exist for
habit id 2 in `exDB1`, and indeed the reported correlation is not for
id 2. -/
theorem C1_habit_absent_when_few_registrations_witness :
    exCorr1.habitId ≠ 2 :=
  C1_habit_absent_when_few_registrations exDB1 0 1 2 true 6 (5/2) [exCorr1]
    exCorr1 (Or.inl (by decide)) exDB1_report (List.mem_singleton.2 rfl)

/-- C2 counterexample: on `exDB1` the analysis returns the report when
the upsert commit succeeds, but returns the propagated error when the
commit raises — the returned result does depend on a successful
writeback. -/
theorem C2_counterexample :
    analyzeUserPatterns exDB1 0 1 true
        = Except.ok (PatternReport.full 6 (5/2) [exCorr1])
      ∧ analyzeUserPatterns exDB1 0 1 false = Except.error () := by
  refine ⟨exDB1_report, ?_⟩
  unfold analyzeUserPatterns analyzeHabitMoodCorrelations saveCorrelationsToDb
  rw [if_neg (by decide)]
  rfl

/-- C2 (amended): whenever the window holds at least 5 mood samples
(so that the correlation path and its unguarded `db.commit()` run), a
failing writeback propagates out of `analyze_user_patterns` and the
in-memory report is not returned. -/
theorem C2_commit_failure_propagates (db : DB) (cutoff uid : ℕ)
    (h5 : 5 ≤ (windowMoods db cutoff uid).length) :
    analyzeUserPatterns db cutoff uid false = Except.error () := by
  unfold analyzeUserPatterns analyzeHabitMoodCorrelations saveCorrelationsToDb
  rw [if_neg (by omega)]
  simp

/-- Witness for the amended C2 on `exDB1`. -/
theorem C2_commit_failure_propagates_witness :
    analyzeUserPatterns exDB1 0 1 false = Except.error () :=
  C2_commit_failure_propagates exDB1 0 1 (by decide)

/-- Rounded to 3 digits, a value in `[-9/10, 9/10]` stays in `[-1, 1]`. -/
theorem pyRound3_bounds {x : ℚ} (h1 : -(9/10) ≤ x) (h2 : x ≤ 9/10) :
    -1 ≤ pyRound x 3 ∧ pyRound x 3 ≤ 1 := by
  constructor
  · have h := le_pyRound (x := x) (d := 3) (n := -1000)
      (by push_cast; nlinarith)
    norm_num at h
    exact h
  · have h := pyRound_le (x := x) (d := 3) (n := 1000)
      (by push_cast; nlinarith)
    norm_num at h
    exact h

/-- Rounded to 2 digits, a value in `[0, 1]` stays in `[0, 1]`. -/
theorem pyRound2_bounds {x : ℚ} (h1 : 0 ≤ x) (h2 : x ≤ 1) :
    0 ≤ pyRound x 2 ∧ pyRound x 2 ≤ 1 := by
  constructor
  · have h := le_pyRound (x := x) (d := 2) (n := 0)
      (by push_cast; nlinarith)
    norm_num at h
    exact h
  · have h := pyRound_le (x := x) (d := 2) (n := 100)
      (by push_cast; nlinarith)
    norm_num at h
    exact h

/-- C4: if all stored mood levels lie in `[1, 10]`, every correlation
of the returned report has `impact ∈ [-1, 1]` and
`confidence ∈ [0, 1]`. -/
theorem C4_impact_confidence_bounds
    (db : DB) (cutoff uid : ℕ) (commitOk : Bool) (dp : ℕ) (avg : ℚ)
    (corrs : List Correlation) (c : Correlation)
    (hlev : ∀ m ∈ db.estadosAnimo, 1 ≤ m.nivel ∧ m.nivel ≤ 10)
    (hr : analyzeUserPatterns db cutoff uid commitOk
      = Except.ok (PatternReport.full dp avg corrs))
    (hc : c ∈ corrs) :
    (-1 ≤ c.impact ∧ c.impact ≤ 1)
      ∧ 0 ≤ c.confidence ∧ c.confidence ≤ 1 := by
  rcases analyzeUserPatterns_ok_full hr with ⟨hcorrs, -⟩
  subst hcorrs
  rcases mem_habitMoodCorrelations hc with ⟨hab, -, hsome⟩
  rcases corrForHabit_eq_some hsome with ⟨-, -, hneOn, hneOff, -, himp, hconf⟩
  have hOn : 1 ≤ avgMoodOn db cutoff uid hab.id
      ∧ avgMoodOn db cutoff uid hab.id ≤ 10 := by
    unfold avgMoodOn
    refine qmean_mem_Icc ?_ ?_
    · intro h0
      exact hneOn (List.map_eq_nil_iff.1 h0)
    · intro x hx
      rcases List.mem_map.1 hx with ⟨n, hn, rfl⟩
      rcases mem_habitDayMoodSamples hn with ⟨m, hm, rfl⟩
      have hb := hlev m hm
      exact ⟨by exact_mod_cast hb.1, by exact_mod_cast hb.2⟩
  have hOff : 1 ≤ avgMoodOff db cutoff uid hab.id
      ∧ avgMoodOff db cutoff uid hab.id ≤ 10 := by
    unfold avgMoodOff
    refine qmean_mem_Icc ?_ ?_
    · intro h0
      exact hneOff (List.map_eq_nil_iff.1 h0)
    · intro x hx
      rcases List.mem_map.1 hx with ⟨n, hn, rfl⟩
      rcases mem_nonHabitDayMoodSamples hn with ⟨m, hm, rfl⟩
      have hb := hlev m hm
      exact ⟨by exact_mod_cast hb.1, by exact_mod_cast hb.2⟩
  have hi1 : -(9/10 : ℚ) ≤ corrImpact db cutoff uid hab.id := by
    unfold corrImpact
    linarith [hOn.1, hOn.2, hOff.1, hOff.2]
  have hi2 : corrImpact db cutoff uid hab.id ≤ 9/10 := by
    unfold corrImpact
    linarith [hOn.1, hOn.2, hOff.1, hOff.2]
  have hc1 : (0 : ℚ) ≤ corrConfidence db cutoff uid hab.id := by
    unfold corrConfidence
    positivity
  have hc2 : corrConfidence db cutoff uid hab.id ≤ 1 := by
    unfold corrConfidence
    exact min_le_left _ _
  rw [himp, hconf]
  exact ⟨pyRound3_bounds hi1 hi2, pyRound2_bounds hc1 hc2⟩

/-- Witness for C4 at the report of `exDB1`. -/
theorem C4_impact_confidence_bounds_witness :
    (-1 ≤ exCorr1.impact ∧ exCorr1.impact ≤ 1)
      ∧ 0 ≤ exCorr1.confidence ∧ exCorr1.confidence ≤ 1 :=
  C4_impact_confidence_bounds exDB1 0 1 true 6 (5/2) [exCorr1] exCorr1
    (by decide) exDB1_report (List.mem_singleton.2 rfl)

/-- Confidence is the same window-determined constant for every
reported correlation: the two partitions always split the same window
moods, so `len(mood_with) + len(mood_without)` is the window size. -/
theorem confidence_constant {db : DB} {cutoff uid : ℕ} {c : Correlation}
    (hc : c ∈ habitMoodCorrelations db cutoff uid) :
    c.confidence
      = pyRound (min 1 (((windowMoods db cutoff uid).length : ℚ) / 20)) 2 := by
  rcases mem_habitMoodCorrelations hc with ⟨hab, -, hsome⟩
  rcases corrForHabit_eq_some hsome with ⟨-, -, -, -, -, -, hconf⟩
  rw [hconf]
  unfold corrConfidence
  rw [habitDay_add_nonHabitDay_length]

/-- C8: every reported correlation has `|impact| ≥ 0.3`, and the list
is sorted by `|impact|` descending; on `|impact|` ties the
higher-or-equal-confidence order also holds — in fact all rows of one
run carry the identical confidence (`confidence_constant`), and they
share one analysis run's `computed_at`, so both tie-breaks of the claim
are satisfied (non-strictly) by the stable sort. -/
theorem C8_correlations_filtered_sorted
    (db : DB) (cutoff uid : ℕ) (commitOk : Bool) (dp : ℕ) (avg : ℚ)
    (corrs : List Correlation)
    (hr : analyzeUserPatterns db cutoff uid commitOk
      = Except.ok (PatternReport.full dp avg corrs)) :
    (∀ c ∈ corrs, 3/10 ≤ |c.impact|)
      ∧ corrs.Pairwise (fun a b => |b.impact| ≤ |a.impact|
          ∧ (|a.impact| = |b.impact| → b.confidence ≤ a.confidence)) := by
  rcases analyzeUserPatterns_ok_full hr with ⟨hcorrs, -⟩
  subst hcorrs
  constructor
  · intro c hc
    rcases mem_habitMoodCorrelations hc with ⟨hab, -, hsome⟩
    rcases corrForHabit_eq_some hsome with ⟨-, -, -, -, hth, himp, -⟩
    rw [himp]
    rcases abs_cases (corrImpact db cutoff uid hab.id) with ⟨he, hpos⟩ | ⟨he, hneg⟩
    · rw [he] at hth
      have hlow := le_pyRound (x := corrImpact db cutoff uid hab.id)
        (d := 3) (n := 300) (by push_cast; nlinarith)
      norm_num at hlow
      calc (3/10 : ℚ) ≤ pyRound (corrImpact db cutoff uid hab.id) 3 := hlow
        _ ≤ |pyRound (corrImpact db cutoff uid hab.id) 3| := le_abs_self _
    · rw [he] at hth
      have hup := pyRound_le (x := corrImpact db cutoff uid hab.id)
        (d := 3) (n := -300) (by push_cast; nlinarith)
      norm_num at hup
      have h1 : (3/10 : ℚ) ≤ -(pyRound (corrImpact db cutoff uid hab.id) 3) := by
        linarith
      exact h1.trans (neg_le_abs _)
  · have hsorted : (habitMoodCorrelations db cutoff uid).Pairwise
        (fun a b : Correlation => |b.impact| ≤ |a.impact|) := by
      unfold habitMoodCorrelations
      refine List.Pairwise.imp (fun h => of_decide_eq_true h)
        (pairwise_stableSort ?_ ?_ _)
      · intro a b
        rcases le_total |b.impact| |a.impact| with h | h
        · exact Or.inl (decide_eq_true h)
        · exact Or.inr (decide_eq_true h)
      · intro a b c hab hbc
        exact decide_eq_true
          (le_trans (of_decide_eq_true hbc) (of_decide_eq_true hab))
    refine hsorted.imp_of_mem ?_
    intro a b ha hb h
    refine ⟨h, fun _ => ?_⟩
    rw [confidence_constant ha, confidence_constant hb]

/-- Witness for C8 at the report of `exDB1`. -/
theorem C8_correlations_filtered_sorted_witness :
    (3/10 : ℚ) ≤ |exCorr1.impact|
      ∧ ([exCorr1] : List Correlation).Pairwise
          (fun a b => |b.impact| ≤ |a.impact|
            ∧ (|a.impact| = |b.impact| → b.confidence ≤ a.confidence)) :=
  ⟨(C8_correlations_filtered_sorted exDB1 0 1 true 6 (5/2) [exCorr1]
      exDB1_report).1 exCorr1 (List.mem_singleton.2 rfl),
   (C8_correlations_filtered_sorted exDB1 0 1 true 6 (5/2) [exCorr1]
      exDB1_report).2⟩

/-! ### Cyclical Pattern Detector and Resilience -/

theorem length_insertSorted (le : α → α → Bool) (a : α) (l : List α) :
    (insertSorted le a l).length = l.length + 1 := by
  induction l with
  | nil => rfl
  | cons b bs ih =>
    unfold insertSorted
    split
    · rfl
    · simp only [List.length_cons, ih]

theorem length_stableSort (le : α → α → Bool) (l : List α) :
    (stableSort le l).length = l.length := by
  induction l with
  | nil => rfl
  | cons a as ih =>
    unfold stableSort
    rw [length_insertSorted, ih, List.length_cons]

theorem length_sortByTs (l : List EstadoAnimo) :
    (sortByTs l).length = l.length :=
  length_stableSort _ _

theorem hourOf_lt (ts : ℕ) : hourOf ts < 24 := by
  unfold hourOf
  have h1 : ts % 86400 < 86400 := Nat.mod_lt _ (by norm_num)
  omega

theorem weekdayOf_lt (ts : ℕ) : weekdayOf ts < 7 := by
  unfold weekdayOf
  exact Nat.mod_lt _ (by norm_num)

theorem analyzeDailyPattern_ne_nil {moods : List EstadoAnimo}
    (h : moods ≠ []) : analyzeDailyPattern moods ≠ [] := by
  cases moods with
  | nil => exact absurd rfl h
  | cons m ms =>
    intro h0
    unfold analyzeDailyPattern at h0
    rw [List.filterMap_eq_nil_iff] at h0
    have hh : hourOf m.ts ∈ List.range 24 := List.mem_range.2 (hourOf_lt m.ts)
    have hcontra := h0 _ hh
    dsimp only at hcontra
    split at hcontra
    · rename_i hempty
      have hmem : m ∈ (m :: ms).filter (fun x => hourOf x.ts == hourOf m.ts) :=
        List.mem_filter.2 ⟨List.mem_cons_self _ _, by simp⟩
      rw [List.isEmpty_iff] at hempty
      rw [hempty] at hmem
      cases hmem
    · cases hcontra

theorem analyzeWeeklyPattern_ne_nil {moods : List EstadoAnimo}
    (h : moods ≠ []) : analyzeWeeklyPattern moods ≠ [] := by
  cases moods with
  | nil => exact absurd rfl h
  | cons m ms =>
    intro h0
    unfold analyzeWeeklyPattern at h0
    rw [List.filterMap_eq_nil_iff] at h0
    have hh : weekdayOf m.ts ∈ List.range 7 :=
      List.mem_range.2 (weekdayOf_lt m.ts)
    have hcontra := h0 _ hh
    dsimp only at hcontra
    split at hcontra
    · rename_i hempty
      have hmem : m ∈ (m :: ms).filter (fun x => weekdayOf x.ts == weekdayOf m.ts) :=
        List.mem_filter.2 ⟨List.mem_cons_self _ _, by simp⟩
      rw [List.isEmpty_iff] at hempty
      rw [hempty] at hmem
      cases hmem
    · cases hcontra

/-- Helper: the three-way cycle selection never yields unknown. -/
theorem ite_cycle_ne_unknown (c₁ c₂ : Prop) [Decidable c₁] [Decidable c₂] :
    (if c₁ then "monthly" else if c₂ then "daily" else "weekly")
      ≠ "unknown" := by
  split
  · decide
  · split
    · decide
    · decide

/-- With nonempty daily and weekly patterns, the predominant cycle is
one of monthly, daily or weekly — never unknown. -/
theorem detectPredominantCycle_ne_unknown
    {daily weekly : List (ℕ × BucketStat)}
    {monthly : Option (List (ℕ × BucketStat))}
    (hd : daily ≠ []) (hw : weekly ≠ []) :
    detectPredominantCycle daily weekly monthly ≠ "unknown" := by
  unfold detectPredominantCycle
  rw [if_neg (by
    simp only [Bool.or_eq_true, List.isEmpty_iff, List.map_eq_nil_iff]
    push_neg
    exact ⟨hd, hw⟩)]
  exact ite_cycle_ne_unknown _ _

/-- Every period closed by the crisis scan ends at a sample with
level strictly above 6. -/
theorem findLowMoodPeriods_finalMood :
    ∀ (ms : List EstadoAnimo) (st : Option EstadoAnimo) (p : CrisisPeriod),
      p ∈ findLowMoodPeriods ms st → 6 < p.finalMood := by
  intro ms
  induction ms with
  | nil =>
    intro st p hp
    unfold findLowMoodPeriods at hp
    cases hp
  | cons m rest ih =>
    intro st p hp
    cases st with
    | none =>
      unfold findLowMoodPeriods at hp
      split at hp
      · exact ih _ p hp
      · exact ih _ p hp
    | some start =>
      unfold findLowMoodPeriods at hp
      split at hp
      · rename_i hm
        rcases List.mem_cons.1 hp with rfl | hp'
        · simpa using hm
        · exact ih _ p hp'
      · exact ih _ p hp

/-- C10: a non-error resilience report always has
`recovery_success_rate = 1.0`, because a crisis period is closed only
by a sample with level > 6, so every recorded `final_mood` is at least
7 and counts as a successful recovery. -/
theorem C10_recovery_success_rate_one
    (db : DB) (cutoff uid : ℕ) (a r : ℚ) (f s n : ℕ) (sc : ℚ)
    (h : analyzeResilience db cutoff uid
      = ResilienceReport.report a r f s n sc) :
    r = 1
      ∧ ∀ p ∈ findLowMoodPeriods (sortByTs (windowMoods db cutoff uid)) none,
          7 ≤ p.finalMood := by
  have hall : ∀ p ∈ findLowMoodPeriods (sortByTs (windowMoods db cutoff uid))
      none, 6 < p.finalMood :=
    fun p hp => findLowMoodPeriods_finalMood _ _ p hp
  refine ⟨?_, fun p hp => by have := hall p hp; omega⟩
  unfold analyzeResilience at h
  split at h
  · simp at h
  · cases hp : findLowMoodPeriods (sortByTs (windowMoods db cutoff uid)) none with
    | nil =>
      rw [hp] at h
      simp at h
    | cons p0 ps =>
      rw [hp] at h
      rw [hp] at hall
      dsimp only at h
      injection h with h1 h2 h3 h4 h5 h6
      rw [← h2]
      have hfm : ∀ x ∈ (p0 :: ps).map (fun q => q.finalMood),
          (fun m : ℤ => decide (6 ≤ m)) x = true := by
        intro x hx
        rcases List.mem_map.1 hx with ⟨q, hq, rfl⟩
        have := hall q hq
        simp only [decide_eq_true_eq]
        omega
      rw [List.filter_eq_self.2 hfm]
      have hlen : ((((p0 :: ps).map fun q => q.finalMood).length : ℕ) : ℚ) ≠ 0 := by
        simp only [List.length_map, List.length_cons]
        push_cast
        positivity
      rw [div_self hlen]
      rw [pyRound_intCast (n := 100) (by norm_num)]
      norm_num

theorem exDB10_periods :
    findLowMoodPeriods (sortByTs (windowMoods exDB10 0 1)) none
      = [⟨0, 172800, 8⟩] := by decide

theorem exDB10_resilience :
    analyzeResilience exDB10 0 1
      = ResilienceReport.report 172800 1 172800 172800 1 8 := by
  have e5 : pyRound (1 : ℚ) 2 = 1 := by
    rw [pyRound_intCast (n := 100) (by norm_num)]
    norm_num
  have e6 : pyRound (8 : ℚ) 1 = 8 := by
    rw [pyRound_intCast (n := 80) (by norm_num)]
    norm_num
  unfold analyzeResilience
  rw [if_neg (by decide), exDB10_periods]
  dsimp only
  simp only [List.map, List.filter, List.length, List.foldl,
    decide_eq_true_eq, ResilienceReport.report.injEq]
  norm_num [qmean, qsum, e5, e6]

/-- Witness for C10: on `exDB10` the resilience report exists and its
success rate is 1. -/
theorem C10_recovery_success_rate_one_witness :
    analyzeResilience exDB10 0 1
        = ResilienceReport.report 172800 1 172800 172800 1 8
      ∧ (1 : ℚ) = 1 :=
  ⟨exDB10_resilience,
   (C10_recovery_success_rate_one exDB10 0 1 172800 1 172800 172800 1 8
      exDB10_resilience).1⟩

/-- C9 counterexample: `exDB9` has 5 samples in the window, 2 of them
crisis samples (≥ 2), yet the returned report's
`next_low_mood_prediction` is `none` — the claim demands the projected
date — because the two crisis samples fall within one calendar day and
the code drops zero-day truncated gaps. -/
theorem C9_counterexample :
    (windowMoods exDB9 0 1).length = 5
      ∧ (lowMoodsOf (sortByTs (windowMoods exDB9 0 1))).length = 2
      ∧ cycleIsReport (detectEmotionalCycles exDB9 0 1) = true
      ∧ cycleNextLowMoodPrediction (detectEmotionalCycles exDB9 0 1)
        = none := by
  have hP : detectPredominantCycle
      (analyzeDailyPattern (sortByTs (windowMoods exDB9 0 1)))
      (analyzeWeeklyPattern (sortByTs (windowMoods exDB9 0 1)))
      (if 20 < (sortByTs (windowMoods exDB9 0 1)).length then
        some (analyzeMonthlyPattern (sortByTs (windowMoods exDB9 0 1)))
      else none) ≠ "unknown" :=
    detectPredominantCycle_ne_unknown
      (analyzeDailyPattern_ne_nil (by decide))
      (analyzeWeeklyPattern_ne_nil (by decide))
  refine ⟨by decide, by decide, ?_, ?_⟩
  · unfold detectEmotionalCycles
    rw [if_neg (by decide)]
    rfl
  · unfold detectEmotionalCycles
    rw [if_neg (by decide)]
    dsimp only [cycleNextLowMoodPrediction]
    unfold predictLowMoodTime
    rw [if_neg (by
      simp only [Bool.or_eq_true, beq_iff_eq]
      push_neg
      exact ⟨by decide, hP⟩)]
    rw [if_neg (by decide), if_pos (by decide), if_pos (by decide)]

/-- C9 (amended): with ≥ 5 samples in the window the detector returns a
report, and `next_low_mood_prediction` is the last crisis sample's
timestamp plus 86400 times the mean of the *positive whole-day*
(truncated) gaps between consecutive crisis samples — `some` exactly
when there are ≥ 2 crisis samples and at least one consecutive pair
lies a full day or more apart; otherwise (fewer than 2 crisis samples,
or all gaps truncating to zero days) it is `null`. -/
theorem C9_prediction_characterization
    (db : DB) (cutoff uid : ℕ)
    (h5 : 5 ≤ (windowMoods db cutoff uid).length) :
    cycleIsReport (detectEmotionalCycles db cutoff uid) = true
      ∧ cycleNextLowMoodPrediction (detectEmotionalCycles db cutoff uid)
        = (if 2 ≤ (lowMoodsOf (sortByTs (windowMoods db cutoff uid))).length
              ∧ lowMoodIntervals (sortByTs (windowMoods db cutoff uid)) ≠ []
            then
              ((lowMoodsOf (sortByTs (windowMoods db cutoff uid))).getLast?).map
                fun lastLow => (lastLow.ts : ℚ)
                  + qmean
                    ((lowMoodIntervals
                      (sortByTs (windowMoods db cutoff uid))).map
                        fun n : ℕ => (n : ℚ)) * 86400
            else none) := by
  have hlen : ¬ (sortByTs (windowMoods db cutoff uid)).length < 5 := by
    rw [length_sortByTs]
    omega
  have hMne : sortByTs (windowMoods db cutoff uid) ≠ [] := by
    intro h0
    rw [h0] at hlen
    exact hlen (by simp)
  have hP : detectPredominantCycle
      (analyzeDailyPattern (sortByTs (windowMoods db cutoff uid)))
      (analyzeWeeklyPattern (sortByTs (windowMoods db cutoff uid)))
      (if 20 < (sortByTs (windowMoods db cutoff uid)).length then
        some (analyzeMonthlyPattern (sortByTs (windowMoods db cutoff uid)))
      else none) ≠ "unknown" :=
    detectPredominantCycle_ne_unknown
      (analyzeDailyPattern_ne_nil hMne)
      (analyzeWeeklyPattern_ne_nil hMne)
  unfold detectEmotionalCycles
  rw [if_neg hlen]
  refine ⟨rfl, ?_⟩
  dsimp only [cycleNextLowMoodPrediction]
  unfold predictLowMoodTime
  rw [if_neg (by
    simp only [Bool.or_eq_true, beq_iff_eq, List.isEmpty_iff]
    push_neg
    exact ⟨hMne, hP⟩)]
  by_cases hlow : (lowMoodsOf (sortByTs (windowMoods db cutoff uid))).isEmpty = true
  · rw [if_pos hlow]
    rw [List.isEmpty_iff] at hlow
    rw [if_neg (by
      intro hc
      rw [hlow] at hc
      simp at hc)]
  · rw [if_neg hlow]
    by_cases h2 : 2 ≤ (lowMoodsOf (sortByTs (windowMoods db cutoff uid))).length
    · rw [if_pos h2]
      by_cases hint : (lowMoodIntervals (sortByTs (windowMoods db cutoff uid))).isEmpty = true
      · rw [if_pos hint]
        rw [List.isEmpty_iff] at hint
        rw [if_neg (by
          intro hc
          exact hc.2 hint)]
      · rw [if_neg hint]
        rw [List.isEmpty_iff] at hint
        rw [if_pos ⟨h2, hint⟩]
        cases hgl : (lowMoodsOf (sortByTs (windowMoods db cutoff uid))).getLast? with
        | none =>
          exfalso
          rw [List.getLast?_eq_none_iff] at hgl
          rw [hgl] at hlow
          exact hlow rfl
        | some lastLow => simp
    · rw [if_neg h2, if_neg (fun hc => h2 hc.1)]

/-- Witness for the amended C9 at `exDB9`: all truncated crisis gaps
are zero, so the prediction is `null`. -/
theorem C9_prediction_characterization_witness :
    cycleNextLowMoodPrediction (detectEmotionalCycles exDB9 0 1) = none := by
  rw [(C9_prediction_characterization exDB9 0 1 (by decide)).2]
  rw [if_neg (fun hc => hc.2 (by decide))]

end Loki
